import Mathlib

/-!
Verification of the serial command/response bridge in `RPi/serial_manager.py`.

The Python module is embedded shallowly:
- pure string classification helpers (`_check_for_ack`, `_check_for_response`,
  `_check_for_gyro_data`, `_check_for_accel_data`) become recursive functions
  over the list of buffered input lines (one entry per `readline()` result);
- `json.loads` is an external library call and is modelled as a parameter
  `jl : String -> Option (List (String × α))` returning the parsed object's
  key/value entries, `none` for a decode error; `json.dumps` likewise as a
  parameter `jdump`;
- the stateful execution protocol `_execute_command` becomes a function of an
  explicit environment recording, per retry iteration, the wall-clock reading
  at the loop check and the outcome of the serial operations of that
  iteration, plus the outcomes of the reconnect calls and the bytes found in
  the final last-chance buffer scan;
- the worker `_process_commands` becomes a fold over the queued commands that
  collects the results actually passed to callbacks.
-/

namespace SerialBridge

/-- Python's substring test `pat in s`. -/
def strContains (s pat : String) : Bool :=
  decide (pat.toList <:+: s.toList)

/-- Python's `str.strip()`: remove leading and trailing whitespace. -/
def pyStrip (s : String) : String :=
  ⟨((s.toList.dropWhile Char.isWhitespace).reverse.dropWhile Char.isWhitespace).reverse⟩

/-- Python's `str.startswith(pre)`. -/
def pyStartsWith (s pre : String) : Bool :=
  pre.toList.isPrefixOf s.toList

/-- Python's slice `s[n:]` (by code points). -/
def pyDrop (s : String) (n : ℕ) : String :=
  ⟨s.toList.drop n⟩

/-- The keyword list of `_check_for_ack` (serial_manager.py lines 294-296). -/
def ackKeywords : List String :=
  ["Forward", "Backward", "TurnLeft", "TurnRight", "FBStop", "LRStop",
   "Steady ON", "Steady OFF", "Jump", "stayLow", "handshake",
   "ActionA", "ActionB", "ActionC"]

/-- The keyword list of the last-chance buffer scan (line 260). -/
def scanKeywords : List String :=
  ["Forward", "Backward", "TurnLeft", "TurnRight", "FBStop", "LRStop"]

/-- `SerialManager._check_for_ack` (lines 268-302), as a function of the list
of buffered lines.  Each line is `strip()`-ped; firmware echo lines are
skipped; `ACK:CMD_PROCESSED`, any `ACK:`-prefixed line, or a line containing
one of the confirmation keywords ends the loop. -/
def check_for_ack : List String → Option String
  | [] => none
  | l :: rest =>
    let response := pyStrip l
    if pyStartsWith response "COMMAND RECIEVED:" then check_for_ack rest
    else if response = "ACK:CMD_PROCESSED" then some response
    else if pyStartsWith response "ACK:" then some response
    else if ackKeywords.any (fun cmd => strContains response cmd) then
      some "Implicit ACK from command echo"
    else check_for_ack rest

/-- `SerialManager._check_for_response` (lines 304-326). -/
def check_for_response (expected_response : String) : List String → Option String
  | [] => none
  | l :: rest =>
    let response := pyStrip l
    if pyStartsWith response "COMMAND RECIEVED:" then
      check_for_response expected_response rest
    else if response = expected_response then some response
    else if expected_response = "ACK:GYRO_RESET" ∧ strContains response "GYRO_RESET" = true then
      some response
    else check_for_response expected_response rest

/-- Required fields for gyro data (line 348). -/
def gyroRequiredFields : List String :=
  ["gyro_x", "gyro_y", "gyro_z", "angle_x", "angle_y", "angle_z"]

/-- Required fields for accelerometer data (line 378). -/
def accelRequiredFields : List String :=
  ["acc_x", "acc_y", "acc_z"]

/-- `SerialManager._check_for_gyro_data` (lines 328-356).  `jl` models
`json.loads` on the text after the `GYRO_DATA:` tag: `some` entries on
success, `none` on `json.JSONDecodeError`. -/
def check_for_gyro_data (jl : String → Option (List (String × α))) :
    List String → Option (List (String × α))
  | [] => none
  | l :: rest =>
    let response := pyStrip l
    if pyStartsWith response "COMMAND RECIEVED:" then check_for_gyro_data jl rest
    else if pyStartsWith response "GYRO_DATA:" then
      match jl (pyDrop response "GYRO_DATA:".length) with
      | some gyro_data =>
        if gyroRequiredFields.all (fun key => (gyro_data.map Prod.fst).contains key) then
          some gyro_data
        else check_for_gyro_data jl rest
      | none => check_for_gyro_data jl rest
    else check_for_gyro_data jl rest

/-- `SerialManager._check_for_accel_data` (lines 358-386). -/
def check_for_accel_data (jl : String → Option (List (String × α))) :
    List String → Option (List (String × α))
  | [] => none
  | l :: rest =>
    let response := pyStrip l
    if pyStartsWith response "COMMAND RECIEVED:" then check_for_accel_data jl rest
    else if pyStartsWith response "ACCEL_DATA:" then
      match jl (pyDrop response "ACCEL_DATA:".length) with
      | some accel_data =>
        if accelRequiredFields.all (fun key => (accel_data.map Prod.fst).contains key) then
          some accel_data
        else check_for_accel_data jl rest
      | none => check_for_accel_data jl rest
    else check_for_accel_data jl rest

/-- The `command` value held by a queue entry: a Python dict (for `json`
commands, entries being the dict's key/value pairs) or a string (for `text`
commands). -/
inductive PyCmd (α : Type) where
  | dict (entries : List (String × α))
  | str (s : String)
deriving DecidableEq

/-- The error payloads of the failed result dicts built by
`_execute_command` and `send_command_sync`.  The Python code returns
formatted strings; the embedding keeps the data the string is formatted
from. -/
inductive ExecError where
  /-- line 144: not connected and reconnection failed. -/
  | notConnected
  /-- line 177: JSON command is not a dict. -/
  | invalidJsonFormat
  /-- line 181: JSON command missing the var or val field. -/
  | missingJsonFields
  /-- line 198: unknown command type. -/
  | unknownType (t : String)
  /-- line 266: timed out, naming the elapsed time (modelled in integer
  milliseconds) and attempt count. -/
  | timedOut (elapsedMs : ℕ) (attempts : ℕ)
  /-- line 500: the synchronous wait expired before the callback fired. -/
  | syncWaitTimeout
deriving DecidableEq

/-- The result dict of one command execution.  Success results carry the
optional parsed sensor data and the optional raw response string. -/
inductive ExecResult (α : Type) where
  | ok (data : Option (List (String × α))) (response : Option String)
  | err (e : ExecError)
deriving DecidableEq

/-- The environment's view of one iteration of the busy-retry loop
(lines 165-244): either the locked serial block ran without a raised
exception and `lines` were buffered at the `in_waiting` check after the
write, or a `serial.SerialException` was raised (with the outcome of the
inline reconnect), or some other exception was raised. -/
inductive AttemptEvent where
  | ok (lines : List String)
  | serialExc (reconnected : Bool)
  | exc
deriving DecidableEq

/-- The non-blocking classification pass of one loop iteration
(lines 200-229): only runs when bytes are buffered, then dispatches on the
command kind. -/
def classifyStep (jl : String → Option (List (String × α)))
    (cmd_type : String) (command : PyCmd α) (lines : List String) :
    Option (ExecResult α) :=
  if lines.isEmpty then none
  else if cmd_type = "json" then
    match check_for_ack lines with
    | some response => some (.ok none (some response))
    | none => none
  else if cmd_type = "text" then
    match command with
    | .str s =>
      if s = "GET_GYRO" then
        (check_for_gyro_data jl lines).map (fun d => .ok (some d) none)
      else if s = "GET_ACCEL" then
        (check_for_accel_data jl lines).map (fun d => .ok (some d) none)
      else if s = "RESET_GYRO" then
        (check_for_response "ACK:GYRO_RESET" lines).map (fun _ => .ok none none)
      else if s = "PING" then
        (check_for_response "PONG" lines).map (fun _ => .ok none none)
      else none
    | .dict _ => none
  else none

/-- How the busy-retry loop of `_execute_command` ended: an early `return`
from inside the loop, the deadline check failing (recording the attempt
counter at that moment), or the environment trace being too short to
determine the outcome (a model artifact, not a program behavior). -/
inductive LoopOut (α : Type) where
  | returned (r : ExecResult α)
  | deadline (attempts : ℕ)
  | undetermined
deriving DecidableEq

/-- The busy-retry loop (lines 165-244) over an explicit iteration trace.
Each trace entry is the wall-clock time elapsed at the `while` check (in
integer milliseconds) and the event of that iteration; the loop body only
runs while elapsed < 5000 ms (line 160: `overall_timeout = 5.0` seconds).  Returns the loop outcome together
with the list of command strings written to the link. -/
def execLoop (jl : String → Option (List (String × α)))
    (jdump : List (String × α) → String)
    (cmd_type : String) (command : PyCmd α) :
    List (ℕ × AttemptEvent) → ℕ → LoopOut α × List String
  | [], _ => (.undetermined, [])
  | (t, ev) :: rest, attempt =>
    if t < 5000 then
      match ev with
      | .exc => execLoop jl jdump cmd_type command rest (attempt + 1)
      | .serialExc _ => execLoop jl jdump cmd_type command rest (attempt + 1)
      | .ok lines =>
        if cmd_type = "json" then
          match command with
          | .str _ => (.returned (.err .invalidJsonFormat), [])
          | .dict d =>
            if ((d.map Prod.fst).contains "var" && (d.map Prod.fst).contains "val") = false then
              (.returned (.err .missingJsonFields), [])
            else
              let w := jdump d ++ "\n"
              match classifyStep jl cmd_type command lines with
              | some r => (.returned r, [w])
              | none =>
                let next := execLoop jl jdump cmd_type command rest (attempt + 1)
                (next.1, w :: next.2)
        else if cmd_type = "text" then
          match command with
          | .dict _ => execLoop jl jdump cmd_type command rest (attempt + 1)
          | .str s =>
            let w := s ++ "\n"
            match classifyStep jl cmd_type command lines with
            | some r => (.returned r, [w])
            | none =>
              let next := execLoop jl jdump cmd_type command rest (attempt + 1)
              (next.1, w :: next.2)
        else (.returned (.err (.unknownType cmd_type)), [])
    else (.deadline attempt, [])

/-- The substring test of the last-chance buffer scan (line 260). -/
def lastChanceFound (b : String) : Bool :=
  strContains b "ACK:" || scanKeywords.any (fun term => strContains b term)

/-- The environment of one `_execute_command` run: the connection state on
entry, the outcomes of the reconnect calls, whether the unguarded pre-send
buffer flush (lines 154-157) raised on a broken serial handle, the
iteration trace, the elapsed-time reading taken after the loop (line 247),
and the bytes found by the last-chance scan (`none` when `in_waiting` was
falsy or the scan raised). -/
structure ExecEnv (α : Type) where
  connected : Bool
  serialPresent : Bool
  initialReconnect : Bool
  preventiveReconnect : Bool
  preFlushRaises : Bool
  iters : List (ℕ × AttemptEvent)
  elapsedFinal : ℕ
  finalReconnect : Bool
  finalBuffer : Option String
deriving DecidableEq

/-- The observable outcome of `_execute_command`: a returned result dict
plus the trace of writes, an exception escaping the method (possible only
from the unguarded pre-send flush), or indeterminate because the model's
iteration trace ended before the deadline. -/
inductive ExecOutcome (α : Type) where
  | result (r : ExecResult α) (writes : List String)
  | raised
  | undetermined
deriving DecidableEq

/-- `SerialManager._execute_command` (lines 138-266).  `retry_count` is the
parameter of the same name; the body never reads it. -/
def execute_command (jl : String → Option (List (String × α)))
    (jdump : List (String × α) → String) (env : ExecEnv α)
    (cmd_type : String) (command : PyCmd α) (retry_count : Option ℕ) :
    ExecOutcome α :=
  if (!env.connected || !env.serialPresent) && !env.initialReconnect then
    .result (.err .notConnected) []
  else if env.preFlushRaises then .raised
  else
    match execLoop jl jdump cmd_type command env.iters 0 with
    | (.returned r, ws) => .result r ws
    | (.undetermined, _) => .undetermined
    | (.deadline a, ws) =>
      match env.finalBuffer with
      | some b =>
        if lastChanceFound b then .result (.ok none (some b)) ws
        else .result (.err (.timedOut env.elapsedFinal a)) ws
      | none => .result (.err (.timedOut env.elapsedFinal a)) ws

/-- One entry of the command queue, as built by `send_command`
(lines 469-478): the command type string, the command value, whether a
callback was supplied, and the queued `retry_count`. -/
structure QueuedCmd (α : Type) where
  cmdType : String
  command : PyCmd α
  hasCallback : Bool
  retry_count : Option ℕ
deriving DecidableEq

/-- `SerialManager._process_commands` (lines 109-136) over a finite queue,
pairing each queued command with the environment of its execution.
Returns the results actually delivered to callbacks, in order.  When the
body raises (`.raised` from the unguarded flush), the exception is caught
by the `except Exception` handler at line 135 and the callback is never
invoked. -/
def process_commands (jl : String → Option (List (String × α)))
    (jdump : List (String × α) → String) :
    List (QueuedCmd α × ExecEnv α) → List (ExecResult α)
  | [] => []
  | (c, env) :: rest =>
    match execute_command jl jdump env c.cmdType c.command c.retry_count with
    | .result r _ =>
      (if c.hasCallback then [r] else []) ++ process_commands jl jdump rest
    | .raised => process_commands jl jdump rest
    | .undetermined => process_commands jl jdump rest

/-- The environment of one `send_command_sync` call (lines 480-500): the
connection flag on entry, the outcome of the optional reconnect, whether
the per-request event fired within the wait timeout, and the result the
dispatcher stores in the shared container when it fires. -/
structure SyncEnv (α : Type) where
  connected : Bool
  reconnectResult : Bool
  waitFired : Bool
  deliveredResult : ExecResult α
deriving DecidableEq

/-- `SerialManager.send_command_sync` (lines 480-500).  When not connected
a reconnect is attempted whose outcome is ignored; the command is enqueued
with a callback writing into the shared container; the caller blocks on the
event up to `timeout` and either returns the stored result or a timeout
result, never canceling the queued command. -/
def send_command_sync (env : SyncEnv α) (cmd_type : String)
    (command : PyCmd α) (retry_count : Option ℕ) (timeout : ℕ) :
    ExecResult α :=
  if env.waitFired then env.deliveredResult
  else .err .syncWaitTimeout

/-- The observable outcome of `connect()`: the returned boolean, the
`self.connected` flag afterwards, the sequence of `time.sleep` durations
performed, and the number of open attempts made. -/
structure ConnectOut where
  ret : Bool
  connected : Bool
  sleeps : List ℕ
  attempts : ℕ
deriving DecidableEq

/-- The attempt loop of `connect()` (lines 43-64), recursing on the number
of remaining attempts.  `opens k` is whether the k-th `serial.Serial(...)`
constructor call succeeds (false models a raised exception, caught at
line 59).  A successful open sleeps 3000 ms to stabilize and sets the
flag; a failure sleeps 500 ms and moves to the next attempt.  Durations
are in integer milliseconds. -/
def connectFrom (opens : ℕ → Bool) (prev : Bool) : ℕ → ℕ → ConnectOut
  | _, 0 => ⟨false, prev, [], 5⟩
  | attempt, rem + 1 =>
    if opens attempt then ⟨true, true, [3000], attempt⟩
    else
      let r := connectFrom opens prev (attempt + 1) rem
      ⟨r.ret, r.connected, 500 :: r.sleeps, r.attempts⟩

/-- `SerialManager.connect` (lines 43-64): `max_attempts = 5`, attempts
numbered from 1. -/
def connect (opens : ℕ → Bool) (prev : Bool) : ConnectOut :=
  connectFrom opens prev 1 5

/-- The environment entry `p` carries no matching response: whenever its
event is a completed serial block with buffered `lines`, the classification
pass rejects them all. -/
def okNoMatch (jl : String → Option (List (String × α)))
    (cmd_type : String) (command : PyCmd α) (p : ℕ × AttemptEvent) : Prop :=
  ∀ lines, p.2 = AttemptEvent.ok lines → classifyStep jl cmd_type command lines = none

/-- The command passes the per-iteration validation of the send phase
(lines 173-198): a text command, or a JSON command that is a dict holding
both the var and the val key. -/
def sendOk (cmd_type : String) (command : PyCmd α) : Prop :=
  cmd_type = "text" ∨
    (cmd_type = "json" ∧ ∃ d, command = PyCmd.dict d ∧
      ((d.map Prod.fst).contains "var" && (d.map Prod.fst).contains "val") = true)

/-- Claim C2: a command executed while the manager is not connected (the
connected flag false or no serial handle) attempts a reconnect before any
transmission; when that reconnect fails, the result is a connection-error
failure and no bytes have been written to the link. -/
theorem execute_disconnected_reconnect_fail {α : Type}
    (jl : String → Option (List (String × α)))
    (jdump : List (String × α) → String) (env : ExecEnv α)
    (cmd_type : String) (command : PyCmd α) (retry_count : Option ℕ)
    (hdis : env.connected = false ∨ env.serialPresent = false)
    (hrec : env.initialReconnect = false) :
    execute_command jl jdump env cmd_type command retry_count =
      .result (.err .notConnected) [] := by
  rcases hdis with h | h <;> simp [execute_command, h, hrec]

/-- Witness for C2: a concrete disconnected run. -/
theorem execute_disconnected_reconnect_fail_witness :
    execute_command (α := String) (fun _ => none) (fun _ => "DUMP")
      ⟨false, false, false, false, false, [], 0, false, none⟩
      "text" (.str "PING") none = .result (.err .notConnected) [] :=
  execute_disconnected_reconnect_fail _ _ _ _ _ _ (Or.inl rfl) rfl

/-- Claim C7: `send_command_sync` returns the stored result when the
per-request signal fires in time, and otherwise returns the fixed timeout
failure whatever result the orphaned in-flight command eventually
produces — that result is discarded. -/
theorem send_command_sync_result {α : Type} (env : SyncEnv α)
    (cmd_type : String) (command : PyCmd α) (retry_count : Option ℕ)
    (timeout : ℕ) :
    (env.waitFired = true →
      send_command_sync env cmd_type command retry_count timeout =
        env.deliveredResult) ∧
    (env.waitFired = false → ∀ r : ExecResult α,
      send_command_sync { env with deliveredResult := r } cmd_type command
        retry_count timeout = .err .syncWaitTimeout) := by
  refine ⟨fun h => ?_, fun h r => ?_⟩ <;> simp [send_command_sync, h]

/-- Witness for C7: both branches at concrete inputs. -/
theorem send_command_sync_result_witness :
    send_command_sync (α := String) ⟨true, true, true, .ok none none⟩
      "text" (.str "PING") none 15 = .ok none none ∧
    send_command_sync (α := String) ⟨true, true, false, .ok none none⟩
      "text" (.str "PING") none 15 = .err .syncWaitTimeout := by
  constructor
  · exact (send_command_sync_result ⟨true, true, true, .ok none none⟩
      "text" (.str "PING") none 15).1 rfl
  · exact (send_command_sync_result ⟨true, true, false, .err .notConnected⟩
      "text" (.str "PING") none 15).2 rfl (.ok none none)

/-- Claim C9: the `retry_count` argument has no effect on execution —
`_execute_command` yields the same outcome for any two values, and a queue
entry differing only in `retry_count` produces the same delivered
results. -/
theorem retry_count_unused {α : Type}
    (jl : String → Option (List (String × α)))
    (jdump : List (String × α) → String) (env : ExecEnv α)
    (cmd_type : String) (command : PyCmd α) (r1 r2 : Option ℕ) :
    execute_command jl jdump env cmd_type command r1 =
      execute_command jl jdump env cmd_type command r2 ∧
    ∀ c : QueuedCmd α,
      process_commands jl jdump [({ c with retry_count := r1 }, env)] =
        process_commands jl jdump [({ c with retry_count := r2 }, env)] :=
  ⟨rfl, fun _ => rfl⟩

/-- Claim C1 (code bug): a command whose execution hits the unguarded
pre-send buffer flush with a broken serial handle raises out of
`_execute_command`; the worker's catch-all swallows the exception and the
callback is never invoked, so the enqueued command yields no
ExecutionResult at all. -/
theorem worker_drops_command_on_flush_exception :
    (⟨"json", .dict [("var", "move"), ("val", "1")], true, none⟩ :
        QueuedCmd String).hasCallback = true ∧
    process_commands (α := String) (fun _ => none) (fun _ => "DUMP")
      [(⟨"json", .dict [("var", "move"), ("val", "1")], true, none⟩,
        ⟨true, true, true, true, true, [], 0, false, none⟩)] = [] := by
  decide

/-- Counterexample to C10 as stated: the non-echo line `ACK:Forward`
contains the keyword `Forward`, yet `_check_for_ack` classifies it through
the `ACK:` branch and returns the line itself, not the fixed implicit-ack
payload. -/
theorem ack_keyword_line_counterexample :
    pyStartsWith (pyStrip "ACK:Forward") "COMMAND RECIEVED:" = false ∧
    strContains (pyStrip "ACK:Forward") "Forward" = true ∧
    check_for_ack ["ACK:Forward"] = some "ACK:Forward" ∧
    some "ACK:Forward" ≠ some "Implicit ACK from command echo" := by
  decide

/-- Claim C10 (amended): a non-echo line that does not begin with the
acknowledgment tag `ACK:` and contains any confirmation keyword as a
substring is classified as a successful implicit acknowledgment with the
fixed payload, even with the keyword embedded in unrelated text. -/
theorem keyword_line_implicit_ack (l : String) (rest : List String)
    (h1 : pyStartsWith (pyStrip l) "COMMAND RECIEVED:" = false)
    (h2 : pyStartsWith (pyStrip l) "ACK:" = false)
    (h3 : ackKeywords.any (fun cmd => strContains (pyStrip l) cmd) = true) :
    check_for_ack (l :: rest) = some "Implicit ACK from command echo" := by
  have h4 : pyStrip l ≠ "ACK:CMD_PROCESSED" := by
    intro he
    rw [he] at h2
    exact absurd h2 (by decide)
  simp [check_for_ack, h1, h2, h3, h4]

/-- Witness for C10: a keyword embedded in unrelated text. -/
theorem keyword_line_implicit_ack_witness :
    check_for_ack ["noise TurnLeft noise"] =
      some "Implicit ACK from command echo" :=
  keyword_line_implicit_ack "noise TurnLeft noise" [] (by decide) (by decide)
    (by decide)

/-- Counterexample to C4 as stated: in the last-resort buffer scan an
input consisting of exactly one echo line does cause a success result,
because the scan checks raw substrings without echo filtering. -/
theorem echo_line_triggers_last_chance_success :
    pyStartsWith (pyStrip "COMMAND RECIEVED: Forward") "COMMAND RECIEVED:" = true ∧
    execute_command (α := String) (fun _ => none) (fun _ => "DUMP")
      ⟨true, true, true, true, false, [(6000, .ok [])], 6000, false,
        some "COMMAND RECIEVED: Forward"⟩
      "text" (.str "PING") none =
      .result (.ok none (some "COMMAND RECIEVED: Forward")) [] := by
  decide

/-- Claim C4 (amended): in the main classification pass, a line beginning
with the firmware echo tag is skipped by all four classifiers and never
treated as an acknowledgment or as sensor data; only the last-resort raw
buffer scan lacks this filtering. -/
theorem classifiers_skip_echo_lines (l : String) (rest : List String)
    (h : pyStartsWith (pyStrip l) "COMMAND RECIEVED:" = true) :
    check_for_ack (l :: rest) = check_for_ack rest ∧
    (∀ expected : String,
      check_for_response expected (l :: rest) = check_for_response expected rest) ∧
    (∀ (α : Type) (jl : String → Option (List (String × α))),
      check_for_gyro_data jl (l :: rest) = check_for_gyro_data jl rest) ∧
    (∀ (α : Type) (jl : String → Option (List (String × α))),
      check_for_accel_data jl (l :: rest) = check_for_accel_data jl rest) := by
  refine ⟨?_, fun expected => ?_, fun α jl => ?_, fun α jl => ?_⟩ <;>
    simp [check_for_ack, check_for_response, check_for_gyro_data,
      check_for_accel_data, h]

/-- Witness for C4: concrete echo lines feed through each classifier. -/
theorem classifiers_skip_echo_lines_witness :
    check_for_ack ["COMMAND RECIEVED: Forward"] = check_for_ack [] ∧
    check_for_response "PONG" ["COMMAND RECIEVED: PONG"] =
      check_for_response "PONG" [] := by
  have h1 := classifiers_skip_echo_lines "COMMAND RECIEVED: Forward" [] (by decide)
  have h2 := classifiers_skip_echo_lines "COMMAND RECIEVED: PONG" [] (by decide)
  exact ⟨h1.1, h2.2.1 "PONG"⟩

/-- Claim C6: for a PING command the classifier matches only the exact
token PONG — any successful match returns PONG itself, and a line whose
stripped text differs from PONG (echo or not) is passed over without
producing a result. -/
theorem ping_requires_exact_pong :
    (∀ (lines : List String) (r : String),
      check_for_response "PONG" lines = some r → r = "PONG") ∧
    (∀ (l : String) (rest : List String), pyStrip l ≠ "PONG" →
      check_for_response "PONG" (l :: rest) = check_for_response "PONG" rest) := by
  constructor
  · intro lines
    induction lines with
    | nil => intro r h; simp [check_for_response] at h
    | cons l rest ih =>
      intro r h
      simp only [check_for_response] at h
      split at h
      · exact ih r h
      · split at h
        · rename_i heq
          rw [Option.some_inj] at h
          rw [← h, heq]
        · split at h
          · rename_i hc
            exact absurd hc.1 (by decide)
          · exact ih r h
  · intro l rest hne
    by_cases he : pyStartsWith (pyStrip l) "COMMAND RECIEVED:" = true
    · simp [check_for_response, he]
    · simp [check_for_response, he, hne]

/-- Witness for C6: the soundness direction applied to a concrete buffer,
and a concrete non-PONG line being skipped. -/
theorem ping_requires_exact_pong_witness :
    ("PONG" : String) = "PONG" ∧
    check_for_response "PONG" ["PING", "PONG"] =
      check_for_response "PONG" ["PONG"] := by
  constructor
  · exact ping_requires_exact_pong.1 ["GARBAGE", " PONG "] "PONG" (by decide)
  · exact ping_requires_exact_pong.2 "PING" ["PONG"] (by decide)

/-- Claim C5: for GET_GYRO and GET_ACCEL the classifier reports success
only for a line carrying the matching data tag whose remainder parses to
an object holding all required sensor fields; a line whose payload is
malformed or field-incomplete is discarded and polling moves on. -/
theorem sensor_classifier_requires_fields {α : Type}
    (jl : String → Option (List (String × α))) :
    (∀ (lines : List String) (d : List (String × α)),
      check_for_gyro_data jl lines = some d →
      gyroRequiredFields.all (fun key => (d.map Prod.fst).contains key) = true ∧
      ∃ l ∈ lines, pyStartsWith (pyStrip l) "GYRO_DATA:" = true ∧
        jl (pyDrop (pyStrip l) "GYRO_DATA:".length) = some d) ∧
    (∀ (l : String) (rest : List String),
      (pyStartsWith (pyStrip l) "GYRO_DATA:" = false ∨
        jl (pyDrop (pyStrip l) "GYRO_DATA:".length) = none ∨
        ∃ d, jl (pyDrop (pyStrip l) "GYRO_DATA:".length) = some d ∧
          gyroRequiredFields.all (fun key => (d.map Prod.fst).contains key) = false) →
      check_for_gyro_data jl (l :: rest) = check_for_gyro_data jl rest) ∧
    (∀ (lines : List String) (d : List (String × α)),
      check_for_accel_data jl lines = some d →
      accelRequiredFields.all (fun key => (d.map Prod.fst).contains key) = true ∧
      ∃ l ∈ lines, pyStartsWith (pyStrip l) "ACCEL_DATA:" = true ∧
        jl (pyDrop (pyStrip l) "ACCEL_DATA:".length) = some d) ∧
    (∀ (l : String) (rest : List String),
      (pyStartsWith (pyStrip l) "ACCEL_DATA:" = false ∨
        jl (pyDrop (pyStrip l) "ACCEL_DATA:".length) = none ∨
        ∃ d, jl (pyDrop (pyStrip l) "ACCEL_DATA:".length) = some d ∧
          accelRequiredFields.all (fun key => (d.map Prod.fst).contains key) = false) →
      check_for_accel_data jl (l :: rest) = check_for_accel_data jl rest) := by
  refine ⟨?_, ?_, ?_, ?_⟩
  · intro lines
    induction lines with
    | nil => intro d h; simp [check_for_gyro_data] at h
    | cons l rest ih =>
      intro d h
      simp only [check_for_gyro_data] at h
      split at h
      · obtain ⟨hf, l2, hl2, hp⟩ := ih d h
        exact ⟨hf, l2, List.mem_cons_of_mem _ hl2, hp⟩
      · split at h
        · rename_i hs
          split at h
          · rename_i gd hjl
            split at h
            · rename_i hf
              rw [Option.some_inj] at h
              subst h
              exact ⟨hf, l, List.mem_cons_self _ _, hs, hjl⟩
            · obtain ⟨hf, l2, hl2, hp⟩ := ih d h
              exact ⟨hf, l2, List.mem_cons_of_mem _ hl2, hp⟩
          · obtain ⟨hf, l2, hl2, hp⟩ := ih d h
            exact ⟨hf, l2, List.mem_cons_of_mem _ hl2, hp⟩
        · obtain ⟨hf, l2, hl2, hp⟩ := ih d h
          exact ⟨hf, l2, List.mem_cons_of_mem _ hl2, hp⟩
  · intro l rest hbad
    by_cases he : pyStartsWith (pyStrip l) "COMMAND RECIEVED:" = true
    · simp [check_for_gyro_data, he]
    · rcases hbad with hs | hn | ⟨d, hd, hf⟩
      · simp [check_for_gyro_data, he, hs]
      · by_cases hs : pyStartsWith (pyStrip l) "GYRO_DATA:" = true
        · simp [check_for_gyro_data, he, hs, hn]
        · simp [check_for_gyro_data, he, hs]
      · by_cases hs : pyStartsWith (pyStrip l) "GYRO_DATA:" = true
        · simp [check_for_gyro_data, he, hs, hd, hf]
          intro hall
          exfalso
          rcases List.all_eq_false.mp hf with ⟨x, hx, hpx⟩
          rcases hall x hx with ⟨y, hy⟩
          refine hpx ?_
          simp [List.mem_map]
          exact ⟨y, hy⟩
        · simp [check_for_gyro_data, he, hs]
  · intro lines
    induction lines with
    | nil => intro d h; simp [check_for_accel_data] at h
    | cons l rest ih =>
      intro d h
      simp only [check_for_accel_data] at h
      split at h
      · obtain ⟨hf, l2, hl2, hp⟩ := ih d h
        exact ⟨hf, l2, List.mem_cons_of_mem _ hl2, hp⟩
      · split at h
        · rename_i hs
          split at h
          · rename_i ad hjl
            split at h
            · rename_i hf
              rw [Option.some_inj] at h
              subst h
              exact ⟨hf, l, List.mem_cons_self _ _, hs, hjl⟩
            · obtain ⟨hf, l2, hl2, hp⟩ := ih d h
              exact ⟨hf, l2, List.mem_cons_of_mem _ hl2, hp⟩
          · obtain ⟨hf, l2, hl2, hp⟩ := ih d h
            exact ⟨hf, l2, List.mem_cons_of_mem _ hl2, hp⟩
        · obtain ⟨hf, l2, hl2, hp⟩ := ih d h
          exact ⟨hf, l2, List.mem_cons_of_mem _ hl2, hp⟩
  · intro l rest hbad
    by_cases he : pyStartsWith (pyStrip l) "COMMAND RECIEVED:" = true
    · simp [check_for_accel_data, he]
    · rcases hbad with hs | hn | ⟨d, hd, hf⟩
      · simp [check_for_accel_data, he, hs]
      · by_cases hs : pyStartsWith (pyStrip l) "ACCEL_DATA:" = true
        · simp [check_for_accel_data, he, hs, hn]
        · simp [check_for_accel_data, he, hs]
      · by_cases hs : pyStartsWith (pyStrip l) "ACCEL_DATA:" = true
        · simp [check_for_accel_data, he, hs, hd, hf]
          intro hall
          exfalso
          rcases List.all_eq_false.mp hf with ⟨x, hx, hpx⟩
          rcases hall x hx with ⟨y, hy⟩
          refine hpx ?_
          simp [List.mem_map]
          exact ⟨y, hy⟩
        · simp [check_for_accel_data, he, hs]

/-- Witness for C5: a field-incomplete gyro payload is skipped (the
spec's example, only gyro_x present), at a concrete parse function. -/
theorem sensor_classifier_requires_fields_witness :
    check_for_gyro_data
        (fun s => if s = "G" then some [("gyro_x", "1")] else none)
        ["GYRO_DATA:G"] =
      check_for_gyro_data
        (fun s => if s = "G" then some [("gyro_x", "1")] else none) [] := by
  exact (sensor_classifier_requires_fields
      (fun s => if s = "G" then some [("gyro_x", "1")] else none)).2.1
    "GYRO_DATA:G" []
    (Or.inr (Or.inr ⟨[("gyro_x", "1")], by decide, by decide⟩))

/-- Claim C8: `connect()` makes up to 5 open attempts with a 500 ms delay
after each failure; a success pauses 3000 ms to stabilize, sets the
connected flag and returns true; exhausting all 5 attempts returns false
without raising and leaves the flag as it was. -/
theorem connect_retry_contract (opens : ℕ → Bool) (prev : Bool) :
    ((∀ i, 1 ≤ i → i ≤ 5 → opens i = false) →
      connect opens prev = ⟨false, prev, [500, 500, 500, 500, 500], 5⟩) ∧
    (∀ k, 1 ≤ k → k ≤ 5 → (∀ i, 1 ≤ i → i < k → opens i = false) →
      opens k = true →
      connect opens prev = ⟨true, true, List.replicate (k - 1) 500 ++ [3000], k⟩) := by
  constructor
  · intro h
    have o1 := h 1 (by omega) (by omega)
    have o2 := h 2 (by omega) (by omega)
    have o3 := h 3 (by omega) (by omega)
    have o4 := h 4 (by omega) (by omega)
    have o5 := h 5 (by omega) (by omega)
    simp [connect, connectFrom, o1, o2, o3, o4, o5]
  · intro k hk1 hk5 hlt hk
    interval_cases k
    · simp [connect, connectFrom, hk, List.replicate]
    · have o1 := hlt 1 (by omega) (by omega)
      simp [connect, connectFrom, o1, hk, List.replicate]
    · have o1 := hlt 1 (by omega) (by omega)
      have o2 := hlt 2 (by omega) (by omega)
      simp [connect, connectFrom, o1, o2, hk, List.replicate]
    · have o1 := hlt 1 (by omega) (by omega)
      have o2 := hlt 2 (by omega) (by omega)
      have o3 := hlt 3 (by omega) (by omega)
      simp [connect, connectFrom, o1, o2, o3, hk, List.replicate]
    · have o1 := hlt 1 (by omega) (by omega)
      have o2 := hlt 2 (by omega) (by omega)
      have o3 := hlt 3 (by omega) (by omega)
      have o4 := hlt 4 (by omega) (by omega)
      simp [connect, connectFrom, o1, o2, o3, o4, hk, List.replicate]

/-- Witness for C8: a link that only opens on the third attempt, and one
that never opens. -/
theorem connect_retry_contract_witness :
    connect (fun k => k == 3) false = ⟨true, true, [500, 500, 3000], 3⟩ ∧
    connect (fun _ => false) true = ⟨false, true, [500, 500, 500, 500, 500], 5⟩ := by
  constructor
  · have h := (connect_retry_contract (fun k => k == 3) false).2 3 (by omega)
      (by omega) (fun i h1 h2 => by interval_cases i <;> rfl) rfl
    simpa using h
  · exact (connect_retry_contract (fun _ => false) true).1 (fun i _ _ => rfl)

theorem classifyStep_ok_shape {α : Type}
    (jl : String → Option (List (String × α))) (cmd_type : String)
    (command : PyCmd α) (lines : List String) (r : ExecResult α)
    (h : classifyStep jl cmd_type command lines = some r) :
    ∃ d resp, r = .ok d resp := by
  simp only [classifyStep] at h
  split at h
  · exact absurd h (by simp)
  · split at h
    · split at h
      · rename_i resp heq
        rw [Option.some_inj] at h
        exact ⟨none, some resp, h.symm⟩
      · exact absurd h (by simp)
    · split at h
      · split at h
        · split at h
          · rcases Option.map_eq_some'.mp h with ⟨d, _, hr⟩
            exact ⟨some d, none, hr.symm⟩
          · split at h
            · rcases Option.map_eq_some'.mp h with ⟨d, _, hr⟩
              exact ⟨some d, none, hr.symm⟩
            · split at h
              · rcases Option.map_eq_some'.mp h with ⟨_, _, hr⟩
                exact ⟨none, none, hr.symm⟩
              · split at h
                · rcases Option.map_eq_some'.mp h with ⟨_, _, hr⟩
                  exact ⟨none, none, hr.symm⟩
                · exact absurd h (by simp)
        · exact absurd h (by simp)
      · exact absurd h (by simp)

theorem execLoop_fst_deadline_of_no_match {α : Type}
    (jl : String → Option (List (String × α)))
    (jdump : List (String × α) → String) (cmd_type : String)
    (command : PyCmd α) (hsend : sendOk cmd_type command) :
    ∀ (iters : List (ℕ × AttemptEvent)) (a : ℕ),
      (∀ p ∈ iters, okNoMatch jl cmd_type command p) →
      (∃ p ∈ iters, ¬ p.1 < 5000) →
      (execLoop jl jdump cmd_type command iters a).1 =
        .deadline (a + (iters.takeWhile (fun p => decide (p.1 < 5000))).length) := by
  intro iters
  induction iters with
  | nil =>
    intro a _ hex
    simp at hex
  | cons p rest ih =>
    obtain ⟨t, ev⟩ := p
    intro a hnm hex
    by_cases ht : t < 5000
    · have hnmr : ∀ q ∈ rest, okNoMatch jl cmd_type command q :=
        fun q hq => hnm q (List.mem_cons_of_mem _ hq)
      have hexr : ∃ q ∈ rest, ¬ q.1 < 5000 := by
        rcases hex with ⟨q, hq, hqt⟩
        rcases List.mem_cons.mp hq with rfl | hq2
        · exact absurd ht hqt
        · exact ⟨q, hq2, hqt⟩
      have hrec := ih (a + 1) hnmr hexr
      have hlen : (((t, ev) :: rest).takeWhile (fun p => decide (p.1 < 5000))).length
          = (rest.takeWhile (fun p => decide (p.1 < 5000))).length + 1 := by
        simp [List.takeWhile_cons, ht]
      have hadd : a + ((rest.takeWhile (fun p => decide (p.1 < 5000))).length + 1)
          = (a + 1) + (rest.takeWhile (fun p => decide (p.1 < 5000))).length := by
        omega
      rw [hlen, hadd]
      cases ev with
      | exc =>
        simpa [execLoop, ht] using hrec
      | serialExc b =>
        simpa [execLoop, ht] using hrec
      | ok lines =>
        have hclass : classifyStep jl cmd_type command lines = none :=
          hnm (t, .ok lines) (List.mem_cons_self _ _) lines rfl
        rcases hsend with hty | ⟨hty, d, hcmd, hkeys⟩
        · subst hty
          cases command with
          | dict e => simpa [execLoop, ht] using hrec
          | str s =>
            have hstep : execLoop jl jdump "text" (.str s) ((t, .ok lines) :: rest) a
                = ((execLoop jl jdump "text" (.str s) rest (a + 1)).1,
                   (s ++ "\n") :: (execLoop jl jdump "text" (.str s) rest (a + 1)).2) := by
              simp [execLoop, ht, hclass]
            rw [hstep]
            exact hrec
        · subst hty
          subst hcmd
          have hstep : execLoop jl jdump "json" (.dict d) ((t, .ok lines) :: rest) a
              = ((execLoop jl jdump "json" (.dict d) rest (a + 1)).1,
                 (jdump d ++ "\n") :: (execLoop jl jdump "json" (.dict d) rest (a + 1)).2) := by
            have hkeys2 := hkeys
            simp at hkeys2
            simp [execLoop, ht, hkeys2, hclass]
          rw [hstep]
          exact hrec
    · have hlen : (((t, ev) :: rest).takeWhile (fun p => decide (p.1 < 5000))).length
          = 0 := by
        simp [List.takeWhile_cons, ht]
      rw [hlen]
      simp [execLoop, ht]

theorem execLoop_fst_returned_shape {α : Type}
    (jl : String → Option (List (String × α)))
    (jdump : List (String × α) → String) (cmd_type : String)
    (command : PyCmd α) :
    ∀ (iters : List (ℕ × AttemptEvent)) (a : ℕ) (r : ExecResult α),
      (execLoop jl jdump cmd_type command iters a).1 = .returned r →
      (∃ d resp, r = .ok d resp) ∨ r = .err .invalidJsonFormat ∨
        r = .err .missingJsonFields ∨ ∃ t, r = .err (.unknownType t) := by
  intro iters
  induction iters with
  | nil =>
    intro a r h
    simp [execLoop] at h
  | cons p rest ih =>
    obtain ⟨t, ev⟩ := p
    intro a r h
    by_cases ht : t < 5000
    · cases ev with
      | exc =>
        rw [show (execLoop jl jdump cmd_type command ((t, .exc) :: rest) a)
            = execLoop jl jdump cmd_type command rest (a + 1) by
          simp [execLoop, ht]] at h
        exact ih (a + 1) r h
      | serialExc b =>
        rw [show (execLoop jl jdump cmd_type command ((t, .serialExc b) :: rest) a)
            = execLoop jl jdump cmd_type command rest (a + 1) by
          simp [execLoop, ht]] at h
        exact ih (a + 1) r h
      | ok lines =>
        by_cases hjson : cmd_type = "json"
        · subst hjson
          cases command with
          | str s =>
            have hstep : execLoop jl jdump "json" (.str s) ((t, .ok lines) :: rest) a
                = (.returned (.err .invalidJsonFormat), []) := by
              simp [execLoop, ht]
            rw [hstep] at h
            injection h with h2
            exact Or.inr (Or.inl h2.symm)
          | dict d =>
            by_cases hkeys : ((d.map Prod.fst).contains "var" &&
                (d.map Prod.fst).contains "val") = false
            · have hstep : execLoop jl jdump "json" (.dict d) ((t, .ok lines) :: rest) a
                  = (.returned (.err .missingJsonFields), []) := by
                have hkeys2 := hkeys
                simp at hkeys2
                simp [execLoop, ht, hkeys2]
                intro x hx y hy
                exact absurd hy (hkeys2 x hx y)
              rw [hstep] at h
              injection h with h2
              exact Or.inr (Or.inr (Or.inl h2.symm))
            · rcases hcl : classifyStep jl "json" (.dict d) lines with _ | r2
              · have hstep : execLoop jl jdump "json" (.dict d) ((t, .ok lines) :: rest) a
                    = ((execLoop jl jdump "json" (.dict d) rest (a + 1)).1,
                       (jdump d ++ "\n") :: (execLoop jl jdump "json" (.dict d) rest (a + 1)).2) := by
                  have hkeys2 := hkeys
                  simp at hkeys2
                  simp [execLoop, ht, hkeys2, hcl]
                rw [hstep] at h
                exact ih (a + 1) r h
              · have hstep : execLoop jl jdump "json" (.dict d) ((t, .ok lines) :: rest) a
                    = (.returned r2, [jdump d ++ "\n"]) := by
                  have hkeys2 := hkeys
                  simp at hkeys2
                  simp [execLoop, ht, hkeys2, hcl]
                rw [hstep] at h
                injection h with h2
                rw [← h2]
                exact Or.inl (classifyStep_ok_shape _ _ _ _ _ hcl)
        · by_cases htext : cmd_type = "text"
          · subst htext
            cases command with
            | dict d =>
              have hstep : execLoop jl jdump "text" (.dict d) ((t, .ok lines) :: rest) a
                  = execLoop jl jdump "text" (.dict d) rest (a + 1) := by
                simp [execLoop, ht]
              rw [hstep] at h
              exact ih (a + 1) r h
            | str s =>
              rcases hcl : classifyStep jl "text" (.str s) lines with _ | r2
              · have hstep : execLoop jl jdump "text" (.str s) ((t, .ok lines) :: rest) a
                    = ((execLoop jl jdump "text" (.str s) rest (a + 1)).1,
                       (s ++ "\n") :: (execLoop jl jdump "text" (.str s) rest (a + 1)).2) := by
                  simp [execLoop, ht, hcl]
                rw [hstep] at h
                exact ih (a + 1) r h
              · have hstep : execLoop jl jdump "text" (.str s) ((t, .ok lines) :: rest) a
                    = (.returned r2, [s ++ "\n"]) := by
                  simp [execLoop, ht, hcl]
                rw [hstep] at h
                injection h with h2
                rw [← h2]
                exact Or.inl (classifyStep_ok_shape _ _ _ _ _ hcl)
          · have hstep : execLoop jl jdump cmd_type command ((t, .ok lines) :: rest) a
                = (.returned (.err (.unknownType cmd_type)), []) := by
              cases command <;> simp [execLoop, ht, hjson, htext]
            rw [hstep] at h
            injection h with h2
            exact Or.inr (Or.inr (Or.inr ⟨cmd_type, h2.symm⟩))
    · simp [execLoop, ht] at h

theorem execLoop_fst_deadline_mem {α : Type}
    (jl : String → Option (List (String × α)))
    (jdump : List (String × α) → String) (cmd_type : String)
    (command : PyCmd α) :
    ∀ (iters : List (ℕ × AttemptEvent)) (a n : ℕ),
      (execLoop jl jdump cmd_type command iters a).1 = .deadline n →
      ∃ p ∈ iters, ¬ p.1 < 5000 := by
  intro iters
  induction iters with
  | nil =>
    intro a n h
    simp [execLoop] at h
  | cons p rest ih =>
    obtain ⟨t, ev⟩ := p
    intro a n h
    by_cases ht : t < 5000
    · have hrest : ∃ q ∈ rest, ¬ q.1 < 5000 := by
        cases ev with
        | exc =>
          rw [show (execLoop jl jdump cmd_type command ((t, .exc) :: rest) a)
              = execLoop jl jdump cmd_type command rest (a + 1) by
            simp [execLoop, ht]] at h
          exact ih (a + 1) n h
        | serialExc b =>
          rw [show (execLoop jl jdump cmd_type command ((t, .serialExc b) :: rest) a)
              = execLoop jl jdump cmd_type command rest (a + 1) by
            simp [execLoop, ht]] at h
          exact ih (a + 1) n h
        | ok lines =>
          by_cases hjson : cmd_type = "json"
          · subst hjson
            cases command with
            | str s =>
              have hstep : execLoop jl jdump "json" (.str s) ((t, .ok lines) :: rest) a
                  = (.returned (.err .invalidJsonFormat), []) := by
                simp [execLoop, ht]
              rw [hstep] at h
              simp at h
            | dict d =>
              by_cases hkeys : ((d.map Prod.fst).contains "var" &&
                  (d.map Prod.fst).contains "val") = false
              · have hstep : execLoop jl jdump "json" (.dict d) ((t, .ok lines) :: rest) a
                    = (.returned (.err .missingJsonFields), []) := by
                  have hkeys2 := hkeys
                  simp at hkeys2
                  simp [execLoop, ht, hkeys2]
                  intro x hx y hy
                  exact absurd hy (hkeys2 x hx y)
                rw [hstep] at h
                simp at h
              · rcases hcl : classifyStep jl "json" (.dict d) lines with _ | r2
                · have hstep : execLoop jl jdump "json" (.dict d) ((t, .ok lines) :: rest) a
                      = ((execLoop jl jdump "json" (.dict d) rest (a + 1)).1,
                         (jdump d ++ "\n") :: (execLoop jl jdump "json" (.dict d) rest (a + 1)).2) := by
                    have hkeys2 := hkeys
                    simp at hkeys2
                    simp [execLoop, ht, hkeys2, hcl]
                  rw [hstep] at h
                  exact ih (a + 1) n h
                · have hstep : execLoop jl jdump "json" (.dict d) ((t, .ok lines) :: rest) a
                      = (.returned r2, [jdump d ++ "\n"]) := by
                    have hkeys2 := hkeys
                    simp at hkeys2
                    simp [execLoop, ht, hkeys2, hcl]
                  rw [hstep] at h
                  simp at h
          · by_cases htext : cmd_type = "text"
            · subst htext
              cases command with
              | dict d =>
                have hstep : execLoop jl jdump "text" (.dict d) ((t, .ok lines) :: rest) a
                    = execLoop jl jdump "text" (.dict d) rest (a + 1) := by
                  simp [execLoop, ht]
                rw [hstep] at h
                exact ih (a + 1) n h
              | str s =>
                rcases hcl : classifyStep jl "text" (.str s) lines with _ | r2
                · have hstep : execLoop jl jdump "text" (.str s) ((t, .ok lines) :: rest) a
                      = ((execLoop jl jdump "text" (.str s) rest (a + 1)).1,
                         (s ++ "\n") :: (execLoop jl jdump "text" (.str s) rest (a + 1)).2) := by
                    simp [execLoop, ht, hcl]
                  rw [hstep] at h
                  exact ih (a + 1) n h
                · have hstep : execLoop jl jdump "text" (.str s) ((t, .ok lines) :: rest) a
                      = (.returned r2, [s ++ "\n"]) := by
                    simp [execLoop, ht, hcl]
                  rw [hstep] at h
                  simp at h
            · have hstep : execLoop jl jdump cmd_type command ((t, .ok lines) :: rest) a
                  = (.returned (.err (.unknownType cmd_type)), []) := by
                cases command <;> simp [execLoop, ht, hjson, htext]
              rw [hstep] at h
              simp at h
      rcases hrest with ⟨q, hq, hqt⟩
      exact ⟨q, List.mem_cons_of_mem _ hq, hqt⟩
    · exact ⟨(t, ev), List.mem_cons_self _ _, ht⟩

/-- Claim C3: (1) against a peer whose buffered data never classifies as a
matching response and whose final buffer holds no late acknowledgment, a
valid command times out with a failure naming the elapsed time and the
attempt count; (2) a timeout failure is only ever reported once the
wall clock has passed the 5000 ms deadline — never before; (3) on reaching
the deadline, the last-chance scan of the buffered bytes turns a trailing
acknowledgment or known status keyword into a late success carrying those
bytes as the response. -/
theorem execute_timeout_behavior {α : Type}
    (jl : String → Option (List (String × α)))
    (jdump : List (String × α) → String) :
    (∀ (env : ExecEnv α) (cmd_type : String) (command : PyCmd α)
        (retry_count : Option ℕ),
      env.connected = true → env.serialPresent = true →
      env.preFlushRaises = false → sendOk cmd_type command →
      (∀ p ∈ env.iters, okNoMatch jl cmd_type command p) →
      (∃ p ∈ env.iters, ¬ p.1 < 5000) →
      (∀ b, env.finalBuffer = some b → lastChanceFound b = false) →
      ∃ ws, execute_command jl jdump env cmd_type command retry_count =
        .result (.err (.timedOut env.elapsedFinal
          (env.iters.takeWhile (fun p => decide (p.1 < 5000))).length)) ws) ∧
    (∀ (env : ExecEnv α) (cmd_type : String) (command : PyCmd α)
        (retry_count : Option ℕ) (e n : ℕ) (ws : List String),
      (∀ p ∈ env.iters, p.1 ≤ env.elapsedFinal) →
      execute_command jl jdump env cmd_type command retry_count =
        .result (.err (.timedOut e n)) ws →
      5000 ≤ e) ∧
    (∀ (env : ExecEnv α) (cmd_type : String) (command : PyCmd α)
        (retry_count : Option ℕ) (b : String),
      env.connected = true → env.serialPresent = true →
      env.preFlushRaises = false → sendOk cmd_type command →
      (∀ p ∈ env.iters, okNoMatch jl cmd_type command p) →
      (∃ p ∈ env.iters, ¬ p.1 < 5000) →
      env.finalBuffer = some b → lastChanceFound b = true →
      ∃ ws, execute_command jl jdump env cmd_type command retry_count =
        .result (.ok none (some b)) ws) := by
  refine ⟨?_, ?_, ?_⟩
  · intro env cmd_type command retry_count hconn hser hflush hsend hnm hex hfb
    have hdl := execLoop_fst_deadline_of_no_match jl jdump cmd_type command
      hsend env.iters 0 hnm hex
    rcases E : execLoop jl jdump cmd_type command env.iters 0 with ⟨out, ws2⟩
    rw [E] at hdl
    simp only [] at hdl
    subst hdl
    refine ⟨ws2, ?_⟩
    simp only [execute_command]
    rw [if_neg (by simp [hconn, hser]), if_neg (by simp [hflush]), E]
    rcases hFB : env.finalBuffer with _ | b
    · simp
    · have hfound : lastChanceFound b = false := hfb b hFB
      simp [hfound]
  · intro env cmd_type command retry_count e n ws hmono heq
    simp only [execute_command] at heq
    by_cases hc : (((!env.connected || !env.serialPresent) &&
        !env.initialReconnect) = true)
    · rw [if_pos hc] at heq
      simp at heq
    · rw [if_neg hc] at heq
      by_cases hp : env.preFlushRaises = true
      · rw [if_pos hp] at heq
        simp at heq
      · rw [if_neg hp] at heq
        rcases E : execLoop jl jdump cmd_type command env.iters 0 with ⟨out, ws2⟩
        rw [E] at heq
        cases out with
        | returned r =>
          have hsh := execLoop_fst_returned_shape jl jdump cmd_type command
            env.iters 0 r (by rw [E])
          simp only [] at heq
          injection heq with h1 h2
          subst h1
          rcases hsh with ⟨d, resp, hr⟩ | hr | hr | ⟨t2, hr⟩ <;> simp at hr
        | undetermined =>
          simp at heq
        | deadline a2 =>
          have hmem := execLoop_fst_deadline_mem jl jdump cmd_type command
            env.iters 0 a2 (by rw [E])
          have hge : 5000 ≤ env.elapsedFinal := by
            rcases hmem with ⟨p, hp2, hpt⟩
            have := hmono p hp2
            omega
          rcases hFB : env.finalBuffer with _ | b
          · rw [hFB] at heq
            simp only [] at heq
            injection heq with h1 h2
            injection h1 with h3
            injection h3 with h4 h5
            omega
          · rw [hFB] at heq
            simp only [] at heq
            by_cases hfound : lastChanceFound b = true
            · rw [if_pos hfound] at heq
              simp at heq
            · rw [if_neg hfound] at heq
              injection heq with h1 h2
              injection h1 with h3
              injection h3 with h4 h5
              omega
  · intro env cmd_type command retry_count b hconn hser hflush hsend hnm hex
      hFB hfound
    have hdl := execLoop_fst_deadline_of_no_match jl jdump cmd_type command
      hsend env.iters 0 hnm hex
    rcases E : execLoop jl jdump cmd_type command env.iters 0 with ⟨out, ws2⟩
    rw [E] at hdl
    simp only [] at hdl
    subst hdl
    refine ⟨ws2, ?_⟩
    simp only [execute_command]
    rw [if_neg (by simp [hconn, hser]), if_neg (by simp [hflush]), E]
    rw [hFB]
    simp [hfound]

/-- Witness for C3: a silent-peer run that times out at 6000 ms after one
attempt, and a deadline run rescued by a late acknowledgment in the final
buffer. -/
theorem execute_timeout_behavior_witness :
    (∃ ws, execute_command (α := String) (fun _ => none) (fun _ => "DUMP")
      ⟨true, true, true, true, false, [(0, .ok []), (6000, .exc)], 6000,
        false, none⟩ "text" (.str "PING") none =
      .result (.err (.timedOut 6000 1)) ws) ∧
    (∃ ws, execute_command (α := String) (fun _ => none) (fun _ => "DUMP")
      ⟨true, true, true, true, false, [(6000, .exc)], 6000, false,
        some "late ACK:CMD_PROCESSED"⟩ "text" (.str "PING") none =
      .result (.ok none (some "late ACK:CMD_PROCESSED")) ws) := by
  constructor
  · have h := (execute_timeout_behavior (α := String) (fun _ => none)
        (fun _ => "DUMP")).1
      ⟨true, true, true, true, false, [(0, .ok []), (6000, .exc)], 6000,
        false, none⟩ "text" (.str "PING") none rfl rfl rfl (Or.inl rfl)
      (by
        intro p hp lines hl
        rcases List.mem_cons.mp hp with rfl | hp2
        · injection hl with h2
          subst h2
          rfl
        · rcases List.mem_cons.mp hp2 with rfl | hp3
          · exact absurd hl (by simp)
          · simp at hp3)
      ⟨(6000, .exc), by simp, by omega⟩
      (fun b hb => by cases hb)
    simpa using h
  · have h := (execute_timeout_behavior (α := String) (fun _ => none)
        (fun _ => "DUMP")).2.2
      ⟨true, true, true, true, false, [(6000, .exc)], 6000, false,
        some "late ACK:CMD_PROCESSED"⟩ "text" (.str "PING") none
      "late ACK:CMD_PROCESSED" rfl rfl rfl (Or.inl rfl)
      (by
        intro p hp lines hl
        rcases List.mem_cons.mp hp with rfl | hp2
        · exact absurd hl (by simp)
        · simp at hp2)
      ⟨(6000, .exc), by simp, by omega⟩
      rfl (by decide)
    simpa using h

end SerialBridge
